import Mathlib

/-!
# Compiler service client (`srv/compiler/service.go`)

A shallow embedding of `CompileModel`, `callCompiler`, `getPythonFilePaths`,
`toUrl` and `attachFile`.

Modelling conventions.

* A Go `string` is a Lean `String`; a Go `[]byte` / a file's contents / an HTTP
  body is a `List UInt8`.  The conversion `string(body)` is `goString`.
* A Go `error` is an `Option GoError` (`none` is `nil`).  `GoError` keeps the
  nesting made by `errors.Wrap`; `GoError.Error` renders the message.
* The local filesystem is a map from path strings to nodes (`Disk`).  The
  calls the source makes on it directly (`os.Stat`, `os.Open`, `os.OpenFile`,
  `io.Copy`) are defined on that map.
* Everything the source calls outside this file and outside the Go standard
  library, namely package `lib/fs`, is a field of `Env`, as are the remote
  service (`http.Get`, `http.Post`) and `url.URL.String`.
* Every observable action is appended to `World.log`, so that "no request was
  sent" and "no file was read" are statements about the log.
-/

namespace Compiler

/-! ## Values -/

/-- Contents of a file or of an HTTP body. -/
abbrev Bytes := List UInt8

/-- The Go conversion `string(b)` of a byte slice: one character per byte. -/
def goString (b : Bytes) : String :=
  String.mk (b.map fun x => Char.ofNat x.toNat)

/-- A Go `error` value.  `msg` is an error created from a message
(`fmt.Errorf`, or an error returned by a library); `wrap` is `errors.Wrap`. -/
inductive GoError where
  | msg (text : String)
  | wrap (cause : GoError) (text : String)
  deriving DecidableEq, Repr

/-- The `Error()` method: `errors.Wrap(err, m).Error()` is `m + ": " + err.Error()`. -/
def GoError.Error : GoError → String
  | .msg text => text
  | .wrap cause text => text ++ ": " ++ cause.Error

/-! ## Constants of the source -/

def ArtifactWar : String := "war"
def ArtifactJar : String := "jar"
def ArtifactPythonWar : String := "pywar"

def fileTypeJava : String := "pojo"
def fileTypeJavaDep : String := "jar"
def fileTypeMOJO : String := "mojo"
def fileTypePythonMain : String := "python"
def fileTypePythonOther : String := "pythonextra"

/-- The `asset` struct: a path and a `fileType`. -/
structure asset where
  path : String
  typ : String
  deriving DecidableEq, Repr

/-! ## Go standard library: `path` and `strings` -/

/-- Characters of `s` after the last slash (all of `s` when it has none);
    `acc` collects the current element in reverse. -/
def lastElemAux : List Char → List Char → List Char
  | [], acc => acc.reverse
  | c :: cs, acc => if c = '/' then lastElemAux cs [] else lastElemAux cs (c :: acc)

/-- Suffix of an element starting at its last dot, or `none` when it has no dot. -/
def extAux : List Char → Option (List Char)
  | [] => none
  | c :: cs =>
    match extAux cs with
    | some e => some e
    | none => if c = '.' then some (c :: cs) else none

/-- Go `path.Ext`: the suffix beginning at the final dot in the final
slash-separated element of the path; empty if there is no dot. -/
def pathExt (p : String) : String :=
  match extAux (lastElemAux p.data []) with
  | some e => String.mk e
  | none => ""

/-- Drops trailing slashes (given the reversed path). -/
def dropSlashes : List Char → List Char
  | [] => []
  | c :: cs => if c = '/' then dropSlashes cs else c :: cs

/-- Go `path.Base`: the last element of the path, after removing trailing
slashes; `"."` for the empty path and `"/"` for a path of slashes only. -/
def pathBase (p : String) : String :=
  if p = "" then "."
  else
    let stripped := (dropSlashes p.data.reverse).reverse
    let last := lastElemAux stripped []
    if last = [] then "/" else String.mk last

/-- Splits at slashes. -/
def splitSlash : List Char → List Char → List (List Char)
  | [], acc => [acc.reverse]
  | c :: cs, acc => if c = '/' then acc.reverse :: splitSlash cs [] else splitSlash cs (c :: acc)

/-- One step of `path.Clean` over the stack of kept elements (most recent
first): empty and `.` elements are skipped, `..` removes the previous kept
element when there is one that is not itself `..`, is dropped at the root, and
is kept otherwise. -/
def cleanStep (rooted : Bool) (stack : List (List Char)) (e : List Char) : List (List Char) :=
  if e = [] ∨ e = ['.'] then stack
  else if e = ['.', '.'] then
    match stack with
    | [] => if rooted then [] else [e]
    | top :: rest => if top = ['.', '.'] then e :: stack else rest
  else e :: stack

/-- Go `path.Clean`. -/
def pathClean (p : String) : String :=
  if p = "" then "."
  else
    let rooted := p.data.head? = some '/'
    let kept := ((splitSlash p.data []).foldl (cleanStep rooted) []).reverse
    let body := List.intercalate ['/'] kept
    if rooted then String.mk ('/' :: body)
    else if body = [] then "." else String.mk body

/-- Go `path.Join` of two elements: empty elements are ignored, the rest is
joined with a slash and cleaned; the result is empty when both are empty. -/
def pathJoin (a b : String) : String :=
  if a = "" ∧ b = "" then ""
  else if a = "" then pathClean b
  else if b = "" then pathClean a
  else pathClean (a ++ "/" ++ b)

/-- Go `strings.ToLower`, on the ASCII letters: `A` to `Z` are mapped to `a` to
`z`.  Letters outside ASCII are left as they are; Go maps them as well, but none
of them to `p` or `y`, so whether the result equals `.py` is the same. -/
def stringsToLower (s : String) : String :=
  String.mk (s.data.map Char.toLower)

/-- Go `unicode.IsSpace`. -/
def isSpace (c : Char) : Bool :=
  c = ' ' || c = '\t' || c = '\n' || c = '\r' || c.toNat = 0x0B || c.toNat = 0x0C ||
  c.toNat = 0x85 || c.toNat = 0xA0 || c.toNat = 0x1680 ||
  (0x2000 ≤ c.toNat && c.toNat ≤ 0x200A) || c.toNat = 0x2028 || c.toNat = 0x2029 ||
  c.toNat = 0x202F || c.toNat = 0x205F || c.toNat = 0x3000

/-- Go `strings.TrimSpace`. -/
def stringsTrimSpace (s : String) : String :=
  String.mk ((s.data.dropWhile isSpace).reverse.dropWhile isSpace).reverse

/-! ## The local filesystem -/

/-- What a path names on the local disk.

* `absent creatable`: nothing there; `creatable` says whether a file can be
  created at the path (its directory exists and is writable);
* `blocked`: the path cannot be examined (for instance a directory on the way
  denies search permission);
* `file data readable writable`: a regular file;
* `dir`: a directory. -/
inductive Node where
  | absent (creatable : Bool)
  | blocked
  | file (data : Bytes) (readable writable : Bool)
  | dir
  deriving DecidableEq, Repr

/-- The disk: what each path names. -/
abbrev Disk := String → Node

/-- Outcome of `os.Stat`, as far as the source looks at it: success, an error
for which `os.IsNotExist` holds, or any other error. -/
inductive StatResult where
  | ok
  | notExist
  | otherError
  deriving DecidableEq, Repr

/-- Go `os.Stat`. -/
def osStat (d : Disk) (p : String) : StatResult :=
  match d p with
  | .absent _ => .notExist
  | .blocked => .otherError
  | .file _ _ _ => .ok
  | .dir => .ok

/-- Go `os.IsNotExist(err)` on the error of `os.Stat`; false for a nil error. -/
def osIsNotExist : StatResult → Bool
  | .notExist => true
  | _ => false

/-- Outcome of `os.Open` followed by `io.Copy` out of the opened file. -/
inductive ReadResult where
  | openFailed (err : String)
  | copyFailed (err : String)
  | data (bytes : Bytes)
  deriving DecidableEq, Repr

/-- Go `os.Open(p)` and reading the handle to its end. -/
def osReadFile (d : Disk) (p : String) : ReadResult :=
  match d p with
  | .absent _ => .openFailed ("open " ++ p ++ ": no such file or directory")
  | .blocked => .openFailed ("open " ++ p ++ ": permission denied")
  | .file _ false _ => .openFailed ("open " ++ p ++ ": permission denied")
  | .file data true _ => .data data
  | .dir => .copyFailed ("read " ++ p ++ ": is a directory")

/-- Go `os.OpenFile(p, os.O_WRONLY|os.O_CREATE, 0666)`: on success the disk in
which the file exists (created empty when it was absent, left as it was when
present: the flags hold no `O_TRUNC`), else the error text. -/
def osOpenFileWrite (d : Disk) (p : String) : Except String Disk :=
  match d p with
  | .absent true => .ok (Function.update d p (.file [] true true))
  | .absent false => .error ("open " ++ p ++ ": no such file or directory")
  | .blocked => .error ("open " ++ p ++ ": permission denied")
  | .file _ _ true => .ok d
  | .file _ _ false => .error ("open " ++ p ++ ": permission denied")
  | .dir => .error ("open " ++ p ++ ": is a directory")

/-- One `write` of a single byte at offset `off` of a file: it replaces the
byte at that offset, or extends the file when the offset is its end. -/
def writeByte (file : Bytes) (off : Nat) (b : UInt8) : Bytes :=
  if off < file.length then file.set off b else file ++ [b]

/-- Sequential writes of `bs` starting at offset `off`, as done through a
handle whose offset advances with each write. -/
def writeFrom (file : Bytes) (off : Nat) : Bytes → Bytes
  | [] => file
  | b :: bs => writeFrom (writeByte file off b) (off + 1) bs

/-- Writes `bs` through a handle just opened on `p` (offset 0). -/
def writeOpened (d : Disk) (p : String) (bs : Bytes) : Disk :=
  match d p with
  | .file old r w => Function.update d p (.file (writeFrom old 0 bs) r w)
  | _ => d

/-! ## The remote service and the collaborators -/

/-- One part of a multipart form body: the form field name, the file name and
the bytes of the part. -/
structure Part where
  field : String
  filename : String
  content : Bytes
  deriving DecidableEq, Repr

/-- An HTTP response: `StatusCode`, `Status` (the status line text such as
`500 Internal Server Error`) and the body, which delivers `body` and then
either ends or fails with `bodyErr`. -/
structure Response where
  StatusCode : Int
  Status : String
  body : Bytes
  bodyErr : Option String
  deriving DecidableEq, Repr

/-- Everything `service.go` calls that is defined elsewhere: package `lib/fs`
(path naming and package access), `url.URL.String`, and the remote service
behind `http.Get` and `http.Post` (a transport failure is `.error cause`).
The map returned by `JsonToMap` is an association list, read with
`List.lookup`; `http.Post` receives the parts of the multipart body (the
boundary string of the encoding is left out). -/
structure Env where
  GetGenModelPath : String → Int → String
  GetJavaModelPath : String → Int → String → String
  GetMOJOPath : String → Int → String → String
  GetWarFilePath : String → Int → String → String
  GetPythonWarFilePath : String → Int → String → String
  GetModelJarFilePath : String → Int → String → String
  GetPackagePath : String → Int → String → String
  DirExists : Disk → String → Bool
  GetPackageAttributes : Disk → String → Int → String → Except String Bytes
  JsonToMap : Bytes → Except String (List (String × String))
  ListFiles : Disk → String → Except String (List String)
  urlString : String → String → String → String
  httpGet : String → Except String Response
  httpPost : String → List Part → Except String Response

/-! ## Observable actions -/

/-- An action on the outside world. -/
inductive Event where
  | stat (path : String)
  | httpGet (url : String)
  | httpPost (url : String) (body : List Part)
  | dirExists (path : String)
  | packageAttributes (wd : String) (projectId : Int) (packageName : String)
  | listFiles (path : String)
  | openRead (path : String)
  | openWrite (path : String)
  | write (path : String) (bytes : Bytes)
  deriving DecidableEq, Repr

/-- The state threaded through the program: the disk and the actions so far. -/
structure World where
  disk : Disk
  log : List Event

/-- Appends an action to the log. -/
def World.record (w : World) (e : Event) : World :=
  { w with log := w.log ++ [e] }

/-- An HTTP request of either method. -/
def Event.isHttp : Event → Bool
  | .httpGet _ => true
  | .httpPost _ _ => true
  | _ => false

/-- A POST request. -/
def Event.isPost : Event → Bool
  | .httpPost _ _ => true
  | _ => false

/-- An access to an input file: a model, dependency or Python file opened for
reading, or the package directory, its attributes or its listing. -/
def Event.isInputRead : Event → Bool
  | .openRead _ => true
  | .dirExists _ => true
  | .packageAttributes _ _ _ => true
  | .listFiles _ => true
  | _ => false

/-! ## The program -/

/-- Source `toUrl`: `(&url.URL{Scheme: "http", Host: address, Path: slug}).String()`. -/
def toUrl (env : Env) (address slug : String) : String :=
  env.urlString "http" address slug

/-- Source `attachFile`, writing into the multipart writer `parts`.
`CreateFormFile` starts a part named `fileType` with file name
`path.Base(filePath)` (it writes to a memory buffer and does not fail); the file
is then opened and copied into the part. -/
def attachFile (w : World) (parts : List Part) (filePath fileType : String) :
    Option GoError × List Part × World :=
  let started : Part := ⟨fileType, pathBase filePath, []⟩
  let w1 := w.record (.openRead filePath)
  match osReadFile w.disk filePath with
  | .openFailed err =>
    (some (.msg ("Failed opening file for attachment: " ++ err)), parts ++ [started], w1)
  | .copyFailed err =>
    (some (.msg ("Failed attaching file: " ++ err)), parts ++ [started], w1)
  | .data bytes =>
    (none, parts ++ [{ started with content := bytes }], w1)

/-- The loop of `callCompiler` over `pythonOtherFilePaths`: attaches each file
in turn and stops at the first failure. -/
def attachOthers (w : World) (parts : List Part) : List String → Option GoError × List Part × World
  | [] => (none, parts, w)
  | p :: rest =>
    match attachFile w parts p fileTypePythonOther with
    | (some err, parts1, w1) =>
      (some (.msg ("Failed attaching Python file to compilation request: " ++ err.Error)), parts1, w1)
    | (none, parts1, w1) => attachOthers w1 parts1 rest

/-- First half of source `callCompiler` (up to `writer.Close()`): builds the
multipart body. -/
def buildBody (w : World) (javaDepPath pythonMainFilePath : String) (modelAsset : asset)
    (pythonOtherFilePaths : List String) : Option GoError × List Part × World :=
  match attachFile w [] modelAsset.path modelAsset.typ with
  | (some err, parts1, w1) => (some (.wrap err "failed attaching model"), parts1, w1)
  | (none, parts1, w1) =>
    match attachFile w1 parts1 javaDepPath fileTypeJavaDep with
    | (some err, parts2, w2) => (some (.wrap err "failed attaching java dependency"), parts2, w2)
    | (none, parts2, w2) =>
      if pythonMainFilePath.length > 0 then
        match attachFile w2 parts2 pythonMainFilePath fileTypePythonMain with
        | (some err, parts3, w3) =>
          (some (.msg ("Failed attaching Python main file to compilation request: " ++ err.Error)),
            parts3, w3)
        | (none, parts3, w3) =>
          if pythonOtherFilePaths.length > 0 then attachOthers w3 parts3 pythonOtherFilePaths
          else (none, parts3, w3)
      else (none, parts2, w2)

/-- Second half of source `callCompiler`: the POST and the handling of its
response. -/
def submit (env : Env) (w : World) (url targetFile : String) (body : List Part) :
    Option GoError × World :=
  let w1 := w.record (.httpPost url body)
  match env.httpPost url body with
  | .error err => (some (.msg ("Failed making compilation request: " ++ err)), w1)
  | .ok res =>
    if res.StatusCode ≠ 200 then
      match res.bodyErr with
      | some err => (some (.msg ("Failed reading compilation response: " ++ err)), w1)
      | none =>
        (some (.msg ("Failed compiling scoring service: " ++ res.Status ++ " / " ++
          goString res.body)), w1)
    else
      let w2 := w1.record (.openWrite targetFile)
      match osOpenFileWrite w2.disk targetFile with
      | .error err =>
        (some (.msg ("Failed creating compiled artifact " ++ targetFile ++ ": " ++ err)), w2)
      | .ok opened =>
        let w3 : World :=
          { disk := writeOpened opened targetFile res.body,
            log := w2.log ++ [.write targetFile res.body] }
        match res.bodyErr with
        | some err =>
          (some (.msg ("Failed writing compiled artifact " ++ targetFile ++ ": " ++ err)), w3)
        | none => (none, w3)

/-- Source `callCompiler`. -/
def callCompiler (env : Env) (w : World) (url targetFile javaDepPath pythonMainFilePath : String)
    (modelAsset : asset) (pythonOtherFilePaths : List String) : Option GoError × World :=
  match buildBody w javaDepPath pythonMainFilePath modelAsset pythonOtherFilePaths with
  | (some err, _, w1) => (some err, w1)
  | (none, body, w1) => submit env w1 url targetFile body

/-- Body of the loop of `getPythonFilePaths` over the package file list; the
state is `(pythonMainFilePath, pythonOtherFilePaths)`. -/
def partitionStep (packagePath pythonMain : String) (st : String × List String) (f : String) :
    String × List String :=
  if stringsToLower (pathExt f) = ".py" then
    let p := pathJoin packagePath f
    if f = pythonMain then (p, st.2) else (st.1, st.2 ++ [p])
  else st

/-- Source `getPythonFilePaths`. -/
def getPythonFilePaths (env : Env) (w : World) (wd : String) (projectId : Int)
    (packageName : String) : (String × List String × Option GoError) × World :=
  let packagePath := env.GetPackagePath wd projectId packageName
  let w1 := w.record (.dirExists packagePath)
  if !env.DirExists w.disk packagePath then
    (("", [], some (.msg "Package %!s(MISSING) does not exist")), w1)
  else
    let w2 := w1.record (.packageAttributes wd projectId packageName)
    match env.GetPackageAttributes w.disk wd projectId packageName with
    | .error err => (("", [], some (.msg ("Failed reading package attributes: " ++ err))), w2)
    | .ok packageAttrsBytes =>
      match env.JsonToMap packageAttrsBytes with
      | .error err => (("", [], some (.msg ("Failed parsing package attributes: " ++ err))), w2)
      | .ok packageAttrs =>
        match packageAttrs.lookup "main" with
        | none =>
          (("", [], some (.msg "Failed determining Python main file from package attributes")), w2)
        | some pythonMain =>
          let w3 := w2.record (.listFiles packagePath)
          match env.ListFiles w.disk packagePath with
          | .error err => (("", [], some (.msg ("Failed reading package file list: " ++ err))), w3)
          | .ok packageFileList =>
            let st := packageFileList.foldl (partitionStep packagePath pythonMain) ("", [])
            if st.1.length = 0 then
              (("", [], some (.msg "Failed locating Python main file in package file listing")), w3)
            else ((st.1, st.2, none), w3)

/-- The first `switch` of `CompileModel`: the model asset for a model kind; the
zero asset when the kind is neither `pojo` nor `mojo`. -/
def modelAssetOf (env : Env) (wd : String) (modelId : Int) (modelLogicalName kind : String) : asset :=
  if kind = "pojo" then ⟨env.GetJavaModelPath wd modelId modelLogicalName, fileTypeJava⟩
  else if kind = "mojo" then ⟨env.GetMOJOPath wd modelId modelLogicalName, fileTypeMOJO⟩
  else ⟨"", ""⟩

/-- The second `switch` of `CompileModel`: `(targetFile, slug)` for an artifact
kind; both stay at their zero value when no case matches. -/
def targetAndSlug (env : Env) (wd : String) (modelId : Int) (modelLogicalName artifact : String) :
    String × String :=
  if artifact = ArtifactWar then (env.GetWarFilePath wd modelId modelLogicalName, "makewar")
  else if artifact = ArtifactPythonWar then
    (env.GetPythonWarFilePath wd modelId modelLogicalName, "makepythonwar")
  else if artifact = ArtifactJar then (env.GetModelJarFilePath wd modelId modelLogicalName, "compile")
  else ("", "")

/-- Lines 94 to 105 of `CompileModel`: the package name is trimmed, and the
Python files are resolved when the artifact is the Python war and the trimmed
name is not empty; otherwise the main path and the list keep their zero
values. -/
def resolvePython (env : Env) (w : World) (wd : String) (projectId : Int)
    (artifact packageName : String) : (String × List String × Option GoError) × World :=
  let packageName := stringsTrimSpace packageName
  if artifact = ArtifactPythonWar ∧ packageName.length > 0 then
    getPythonFilePaths env w wd projectId packageName
  else (("", [], none), w)

/-- Source `CompileModel`. -/
def CompileModel (env : Env) (w : World) (address wd : String) (projectId modelId : Int)
    (modelLogicalName artifact kind packageName : String) : (String × Option GoError) × World :=
  let genModelPath := env.GetGenModelPath wd modelId
  let modelAsset := modelAssetOf env wd modelId modelLogicalName kind
  let targetFile := (targetAndSlug env wd modelId modelLogicalName artifact).1
  let slug := (targetAndSlug env wd modelId modelLogicalName artifact).2
  let w1 := w.record (.stat targetFile)
  if osIsNotExist (osStat w.disk targetFile) then
    let w2 := w1.record (.httpGet (toUrl env address "ping"))
    match env.httpGet (toUrl env address "ping") with
    | .error err =>
      (("", some (.wrap (.msg err) "could not connect to prediction service builder")), w2)
    | .ok _ =>
      let resolved := resolvePython env w2 wd projectId artifact packageName
      match resolved with
      | ((_, _, some err), w3) => (("", some err), w3)
      | ((pythonMainFilePath, pythonOtherFilePaths, none), w3) =>
        match callCompiler env w3 (toUrl env address slug) targetFile genModelPath
            pythonMainFilePath modelAsset pythonOtherFilePaths with
        | (some err, w4) => (("", some (.wrap err "failed compiler request")), w4)
        | (none, w4) => ((targetFile, none), w4)
  else ((targetFile, none), w1)

/-! ## Vocabulary of the statements -/

/-- Whether the file at `p` can be opened and read to its end. -/
def readable (d : Disk) (p : String) : Bool :=
  match osReadFile d p with
  | .data _ => true
  | _ => false

/-- The bytes read from the file at `p` (none when it cannot be read). -/
def contentOf (d : Disk) (p : String) : Bytes :=
  match osReadFile d p with
  | .data bytes => bytes
  | _ => []

/-- The multipart part that carries the file at `p` under field name `fileType`. -/
def partOf (d : Disk) (fileType p : String) : Part :=
  ⟨fileType, pathBase p, contentOf d p⟩

/-- The `os.Open` actions for the files of a multipart body, in order. -/
def readsOf (dep main : String) (a : asset) (others : List String) : List Event :=
  [.openRead a.path, .openRead dep] ++
    (if main.length > 0 then .openRead main :: others.map .openRead else [])

/-- The multipart body of `callCompiler` when every file can be read: the
model, the dependency and, when the main path is not empty, the Python main file
followed by the auxiliary files. -/
def bodyOf (d : Disk) (dep main : String) (a : asset) (others : List String) : List Part :=
  [partOf d a.typ a.path, partOf d fileTypeJavaDep dep] ++
    (if main.length > 0 then
      partOf d fileTypePythonMain main :: others.map (partOf d fileTypePythonOther)
    else [])

/-- The multipart body as the specification words it: the model, the dependency,
the Python main file if and only if its path is not empty, and each auxiliary
file, whatever the main path is. -/
def specBody (d : Disk) (dep main : String) (a : asset) (others : List String) : List Part :=
  [partOf d a.typ a.path, partOf d fileTypeJavaDep dep] ++
    (if main.length > 0 then [partOf d fileTypePythonMain main] else []) ++
    others.map (partOf d fileTypePythonOther)

/-- The POST requests on a log, in order. -/
def postsOf (log : List Event) : List (String × List Part) :=
  log.filterMap fun e =>
    match e with
    | .httpPost url body => some (url, body)
    | _ => none

/-! ## Relations between worlds -/

/-- The world `w2` continues `w1`: its log extends that of `w1`. -/
def World.Extends (w2 w1 : World) : Prop := ∃ rest, w2.log = w1.log ++ rest

/-- The world `w2` continues `w1` without a change to the disk and without a
POST request. -/
def World.Observes (w2 w1 : World) : Prop :=
  w2.disk = w1.disk ∧ ∃ rest, w2.log = w1.log ++ rest ∧ postsOf rest = []

/-! ## A sample installation

Concrete collaborators and a concrete disk, used to run the program on
explicit inputs. -/

/-- Bytes of an ASCII text. -/
def asciiBytes (s : String) : Bytes :=
  s.data.map fun c => UInt8.ofNat c.toNat

/-- Sample attributes parser: it knows three documents, the empty object, an
object declaring `a.py` as main and an object declaring `missing.py` as main;
any other input is a parse error. -/
def sampleJsonToMap (b : Bytes) : Except String (List (String × String)) :=
  if b = asciiBytes "\x7b\x7d" then .ok []
  else if b = asciiBytes "\x7b\"main\": \"a.py\"\x7d" then .ok [("main", "a.py")]
  else if b = asciiBytes "\x7b\"main\": \"missing.py\"\x7d" then .ok [("main", "missing.py")]
  else .error "invalid character"

/-- Sample collaborators: every model file lives directly under the working
directory, a package is the directory of its name, its attributes are the file
`attrs.json` in it, and the listing of a directory is given by `listing`.  The
remote service answers the ping with `ping` and every POST with `answer`. -/
def sampleEnv (listing : List String) (ping answer : Except String Response) : Env where
  GetGenModelPath := fun wd _ => pathJoin wd "h2o-genmodel.jar"
  GetJavaModelPath := fun wd _ name => pathJoin wd (name ++ ".java")
  GetMOJOPath := fun wd _ name => pathJoin wd (name ++ ".zip")
  GetWarFilePath := fun wd _ name => pathJoin wd (name ++ ".war")
  GetPythonWarFilePath := fun wd _ name => pathJoin wd (name ++ "-py.war")
  GetModelJarFilePath := fun wd _ name => pathJoin wd (name ++ ".jar")
  GetPackagePath := fun wd _ name => pathJoin wd name
  DirExists := fun d p => d p = .dir
  GetPackageAttributes := fun d wd _ name =>
    match d (pathJoin (pathJoin wd name) "attrs.json") with
    | .file data true _ => .ok data
    | _ => .error "cannot read attributes"
  JsonToMap := sampleJsonToMap
  ListFiles := fun d p => if d p = .dir then .ok listing else .error "not a directory"
  urlString := fun scheme host path => scheme ++ "://" ++ host ++ "/" ++ path
  httpGet := fun _ => ping
  httpPost := fun _ _ => answer

/-- Sample disk under `/w`: a generated model `m.java`, the dependency archive,
a package `pkg` with attributes `attrs` and files `a.py`, `b.py`, `c.txt`; the
three artifact paths of model `m` each name `target`; nothing else exists. -/
def sampleDisk (attrs : Bytes) (target : Node) : Disk := fun p =>
  if p = "/w/m.java" then .file [1, 2] true true
  else if p = "/w/h2o-genmodel.jar" then .file [3] true true
  else if p = "/w/pkg" then .dir
  else if p = "/w/pkg/attrs.json" then .file attrs true true
  else if p = "/w/pkg/a.py" then .file [10] true true
  else if p = "/w/pkg/b.py" then .file [11] true true
  else if p = "/w/pkg/c.txt" then .file [12] true true
  else if p = "/w/m.war" ∨ p = "/w/m-py.war" ∨ p = "/w/m.jar" then target
  else .absent true

/-- A response that delivers its whole body. -/
def reply (code : Int) (status : String) (body : Bytes) : Response :=
  ⟨code, status, body, none⟩

/-- The listing of the sample package. -/
def sampleListing : List String := ["a.py", "b.py", "c.txt"]

/-- Attributes declaring `a.py` as main. -/
def attrsMainA : Bytes := asciiBytes "\x7b\"main\": \"a.py\"\x7d"

/-- Attributes declaring `missing.py` as main. -/
def attrsMainMissing : Bytes := asciiBytes "\x7b\"main\": \"missing.py\"\x7d"

/-- The answer of a service that is up. -/
def pong : Except String Response := .ok (reply 200 "200 OK" [])

/-- A service that is up and answers every POST with status 200 and the body
`[7, 8, 9]`. -/
def builtEnv : Env := sampleEnv sampleListing pong (.ok (reply 200 "200 OK" [7, 8, 9]))

/-- A service that is up and answers every POST with status 500 and the body
`boom`. -/
def failingEnv : Env :=
  sampleEnv sampleListing pong (.ok (reply 500 "500 Internal Server Error" (asciiBytes "boom")))

/-- A service that cannot be reached. -/
def downEnv : Env :=
  sampleEnv sampleListing (.error "dial tcp: connection refused")
    (.ok (reply 200 "200 OK" [7, 8, 9]))

/-- A package directory that holds only `b.py`. -/
def onlyBEnv : Env := sampleEnv ["b.py"] pong (.ok (reply 200 "200 OK" [7, 8, 9]))

/-- No artifact has been built yet and the model directory is writable. -/
def freshWorld : World := ⟨sampleDisk attrsMainA (.absent true), []⟩

/-- No artifact has been built yet and no file can be created at the artifact
paths. -/
def noDirWorld : World := ⟨sampleDisk attrsMainA (.absent false), []⟩

/-- The artifact paths hold a previous artifact of five bytes. -/
def cachedWorld : World := ⟨sampleDisk attrsMainA (.file [1, 2, 3, 4, 5] true true), []⟩

/-- The artifact paths cannot be examined. -/
def blockedWorld : World := ⟨sampleDisk attrsMainA .blocked, []⟩

/-- The package declares a main file that is not in its directory. -/
def missingMainWorld : World := ⟨sampleDisk attrsMainMissing (.absent true), []⟩

/-! ## Theorems -/

/-! ### Frame lemmas: what each function may do to the world -/

theorem World.Extends.same (w : World) : w.Extends w := ⟨[], by simp⟩

theorem World.Extends.after {w3 w2 w1 : World} (h32 : w3.Extends w2) (h21 : w2.Extends w1) :
    w3.Extends w1 := by
  obtain ⟨r1, h1⟩ := h21
  obtain ⟨r2, h2⟩ := h32
  exact ⟨r1 ++ r2, by rw [h2, h1, List.append_assoc]⟩

theorem postsOf_append (l1 l2 : List Event) : postsOf (l1 ++ l2) = postsOf l1 ++ postsOf l2 := by
  simp [postsOf]

theorem World.Observes.idle (w : World) : w.Observes w := ⟨rfl, [], by simp, rfl⟩

theorem World.Observes.following {w3 w2 w1 : World} (h32 : w3.Observes w2) (h21 : w2.Observes w1) :
    w3.Observes w1 := by
  obtain ⟨d1, r1, h1, p1⟩ := h21
  obtain ⟨d2, r2, h2, p2⟩ := h32
  exact ⟨d2.trans d1, r1 ++ r2, by rw [h2, h1, List.append_assoc], by
    rw [postsOf_append, p1, p2]; rfl⟩

theorem World.Observes.extends {w2 w1 : World} (h : w2.Observes w1) : w2.Extends w1 := by
  obtain ⟨_, r, hr, _⟩ := h
  exact ⟨r, hr⟩

theorem World.Observes.posts {w2 w1 : World} (h : w2.Observes w1) :
    postsOf w2.log = postsOf w1.log := by
  obtain ⟨_, r, hr, hp⟩ := h
  rw [hr, postsOf_append, hp, List.append_nil]

theorem World.record_observes (w : World) (e : Event) (he : postsOf [e] = []) :
    (w.record e).Observes w :=
  ⟨rfl, [e], rfl, he⟩

theorem World.record_openRead (w : World) (p : String) :
    (w.record (.openRead p)).Observes w :=
  World.record_observes w _ rfl

theorem World.record_extends (w : World) (e : Event) : (w.record e).Extends w := ⟨[e], rfl⟩

theorem attachFile_world (w : World) (parts : List Part) (p t : String) :
    (attachFile w parts p t).2.2 = w.record (.openRead p) := by
  unfold attachFile
  cases osReadFile w.disk p <;> rfl

theorem attachOthers_observes (ps : List String) (w : World) (parts : List Part) :
    (attachOthers w parts ps).2.2.Observes w := by
  induction ps generalizing w parts with
  | nil => exact World.Observes.idle w
  | cons p rest ih =>
    unfold attachOthers
    have hw := attachFile_world w parts p fileTypePythonOther
    split
    · next h => rw [h] at hw; subst hw; exact World.record_openRead _ _
    · next h => rw [h] at hw; subst hw; exact (ih _ _).following (World.record_openRead _ _)

theorem buildBody_observes (w : World) (dep main : String) (a : asset) (others : List String) :
    (buildBody w dep main a others).2.2.Observes w := by
  unfold buildBody
  have h1 := attachFile_world w [] a.path a.typ
  split
  · next h => rw [h] at h1; subst h1; exact World.record_openRead _ _
  · next parts1 w1 h =>
    rw [h] at h1; subst h1
    have o1 := World.record_observes w (.openRead a.path) rfl
    have h2 := attachFile_world (w.record (.openRead a.path)) parts1 dep fileTypeJavaDep
    split
    · next h => rw [h] at h2; subst h2; exact (World.record_openRead _ _).following o1
    · next parts2 w2 h =>
      rw [h] at h2; subst h2
      have o2 := (World.record_observes _ (.openRead dep) rfl).following o1
      split
      · have h3 := attachFile_world ((w.record (.openRead a.path)).record (.openRead dep)) parts2
          main fileTypePythonMain
        split
        · next h => rw [h] at h3; subst h3; exact (World.record_openRead _ _).following o2
        · next parts3 w3 h =>
          rw [h] at h3; subst h3
          have o3 := (World.record_observes _ (.openRead main) rfl).following o2
          split
          · exact (attachOthers_observes _ _ _).following o3
          · exact o3
      · exact o2

theorem submit_extends (env : Env) (w : World) (url target : String) (body : List Part) :
    (submit env w url target body).2.Extends w := by
  unfold submit
  have e1 : (w.record (.httpPost url body)).Extends w := World.record_extends _ _
  have e2 : ((w.record (.httpPost url body)).record (.openWrite target)).Extends w :=
    (World.record_extends _ _).after e1
  simp only
  repeat' split
  all_goals first
    | exact e1
    | exact e2
    | exact World.Extends.after ⟨[.write target _], rfl⟩ e2

theorem callCompiler_extends (env : Env) (w : World) (url target dep main : String) (a : asset)
    (others : List String) : (callCompiler env w url target dep main a others).2.Extends w := by
  unfold callCompiler
  have hb := (buildBody_observes w dep main a others).extends
  split
  · next h => rw [h] at hb; exact hb
  · next h => rw [h] at hb; exact (submit_extends env _ url target _).after hb

theorem getPythonFilePaths_observes (env : Env) (w : World) (wd : String) (projectId : Int)
    (packageName : String) :
    (getPythonFilePaths env w wd projectId packageName).2.Observes w := by
  unfold getPythonFilePaths
  have e1 := World.record_observes w (.dirExists (env.GetPackagePath wd projectId packageName)) rfl
  have e2 := (World.record_observes _ (.packageAttributes wd projectId packageName) rfl).following e1
  have e3 := (World.record_observes _
    (.listFiles (env.GetPackagePath wd projectId packageName)) rfl).following e2
  simp only
  repeat' split
  all_goals first
    | exact e1
    | exact e2
    | exact e3

/-! ### Building the multipart body -/

theorem readable_iff (d : Disk) (p : String) :
    readable d p = true ↔ osReadFile d p = .data (contentOf d p) := by
  unfold readable contentOf
  cases osReadFile d p <;> simp

theorem attachFile_readable (w : World) (parts : List Part) (p t : String)
    (h : readable w.disk p = true) :
    attachFile w parts p t = (none, parts ++ [partOf w.disk t p], w.record (.openRead p)) := by
  have h2 := (readable_iff w.disk p).1 h
  unfold attachFile
  rw [h2]
  rfl

theorem attachOthers_readable (ps : List String) (w : World) (parts : List Part)
    (h : ∀ p ∈ ps, readable w.disk p = true) :
    attachOthers w parts ps =
      (none, parts ++ ps.map (partOf w.disk fileTypePythonOther),
        ⟨w.disk, w.log ++ ps.map .openRead⟩) := by
  induction ps generalizing w parts with
  | nil => simp [attachOthers]
  | cons p rest ih =>
    unfold attachOthers
    rw [attachFile_readable w parts p _ (h p (List.mem_cons_self _ _))]
    simp only
    rw [ih (w.record (.openRead p)) _ (fun q hq => h q (List.mem_cons_of_mem _ hq))]
    simp [World.record]

theorem buildBody_readable (w : World) (dep main : String) (a : asset) (others : List String)
    (hmodel : readable w.disk a.path = true) (hdep : readable w.disk dep = true)
    (hmain : main.length > 0 → readable w.disk main = true)
    (hothers : ∀ p ∈ others, readable w.disk p = true) :
    buildBody w dep main a others =
      (none, bodyOf w.disk dep main a others,
        ⟨w.disk, w.log ++ readsOf dep main a others⟩) := by
  unfold buildBody
  rw [attachFile_readable w [] a.path a.typ hmodel]
  simp only
  rw [attachFile_readable (w.record (.openRead a.path)) _ dep _ hdep]
  simp only
  by_cases hm : main.length > 0
  · rw [if_pos hm, attachFile_readable ((w.record (.openRead a.path)).record (.openRead dep)) _ main _
      (hmain hm)]
    simp only
    by_cases ho : others.length > 0
    · rw [if_pos ho, attachOthers_readable others
        (((w.record (.openRead a.path)).record (.openRead dep)).record (.openRead main)) _ hothers]
      simp [bodyOf, readsOf, hm, World.record]
    · have : others = [] := by
        cases others with
        | nil => rfl
        | cons x xs => simp at ho
      subst this
      simp [bodyOf, readsOf, hm, World.record]
  · rw [if_neg hm]
    simp [bodyOf, readsOf, hm, World.record]

/-! ### Writing through a handle opened without truncation -/

theorem writeByte_append (pre suf : Bytes) (b : UInt8) :
    writeByte (pre ++ suf) pre.length b = (pre ++ [b]) ++ suf.drop 1 := by
  unfold writeByte
  cases suf with
  | nil => simp
  | cons x xs => simp

theorem writeFrom_append (bs pre suf : Bytes) :
    writeFrom (pre ++ suf) pre.length bs = pre ++ bs ++ suf.drop bs.length := by
  induction bs generalizing pre suf with
  | nil => simp [writeFrom]
  | cons b bs ih =>
    unfold writeFrom
    rw [writeByte_append]
    have := ih (pre ++ [b]) (suf.drop 1)
    simp only [List.length_append, List.length_singleton] at this
    rw [this]
    simp [List.drop_drop, Nat.add_comm]

theorem writeFrom_zero (old bs : Bytes) : writeFrom old 0 bs = bs ++ old.drop bs.length := by
  have := writeFrom_append bs [] old
  simpa using this


/-! ### The request and its answer -/

theorem callCompiler_readable (env : Env) (w : World) (url target dep main : String) (a : asset)
    (others : List String)
    (hmodel : readable w.disk a.path = true) (hdep : readable w.disk dep = true)
    (hmain : main.length > 0 → readable w.disk main = true)
    (hothers : ∀ p ∈ others, readable w.disk p = true) :
    callCompiler env w url target dep main a others =
      submit env ⟨w.disk, w.log ++ readsOf dep main a others⟩ url target
        (bodyOf w.disk dep main a others) := by
  unfold callCompiler
  rw [buildBody_readable w dep main a others hmodel hdep hmain hothers]

theorem postsOf_readsOf (dep main : String) (a : asset) (others : List String) :
    postsOf (readsOf dep main a others) = [] := by
  unfold readsOf postsOf
  split_ifs <;> simp [List.filterMap_eq_nil_iff]

theorem submit_posts (env : Env) (w : World) (url target : String) (body : List Part) :
    postsOf (submit env w url target body).2.log = postsOf w.log ++ [(url, body)] := by
  unfold submit
  simp only
  repeat' split
  all_goals simp [postsOf, World.record]

theorem submit_bad_status (env : Env) (w : World) (url target : String) (body : List Part)
    (res : Response) (hpost : env.httpPost url body = .ok res) (hcode : res.StatusCode ≠ 200)
    (hbody : res.bodyErr = none) :
    submit env w url target body =
      (some (.msg ("Failed compiling scoring service: " ++ res.Status ++ " / " ++
        goString res.body)), w.record (.httpPost url body)) := by
  unfold submit
  simp [hpost, hcode, hbody]

theorem submit_success (env : Env) (w : World) (url target : String) (body : List Part)
    (res : Response) (opened : Disk) (hpost : env.httpPost url body = .ok res)
    (hcode : res.StatusCode = 200) (hbody : res.bodyErr = none)
    (hopen : osOpenFileWrite w.disk target = .ok opened) :
    submit env w url target body =
      (none, ⟨writeOpened opened target res.body,
        w.log ++ [.httpPost url body, .openWrite target, .write target res.body]⟩) := by
  unfold submit
  simp [hpost, hcode, hbody, World.record, hopen]

theorem submit_open_failure (env : Env) (w : World) (url target : String) (body : List Part)
    (res : Response) (err : String) (hpost : env.httpPost url body = .ok res)
    (hcode : res.StatusCode = 200)
    (hopen : osOpenFileWrite w.disk target = .error err) :
    submit env w url target body =
      (some (.msg ("Failed creating compiled artifact " ++ target ++ ": " ++ err)),
        ⟨w.disk, w.log ++ [.httpPost url body, .openWrite target]⟩) := by
  unfold submit
  simp [hpost, hcode, World.record, hopen]

theorem written_absent (d : Disk) (target : String) (X : Bytes) (h : d target = .absent true) :
    ∃ opened, osOpenFileWrite d target = .ok opened ∧
      writeOpened opened target X = Function.update d target (.file X true true) := by
  refine ⟨Function.update d target (.file [] true true), ?_, ?_⟩
  · unfold osOpenFileWrite; rw [h]
  · unfold writeOpened
    simp [writeFrom_zero]

theorem written_present (d : Disk) (target : String) (P X : Bytes) (r : Bool)
    (h : d target = .file P r true) :
    osOpenFileWrite d target = .ok d ∧
      writeOpened d target X = Function.update d target (.file (X ++ P.drop X.length) r true) := by
  constructor
  · unfold osOpenFileWrite; rw [h]
  · unfold writeOpened
    rw [h]
    simp [writeFrom_zero]

theorem getPythonFilePaths_fst (env : Env) (w1 w2 : World) (wd : String) (projectId : Int)
    (packageName : String) (h : w1.disk = w2.disk) :
    (getPythonFilePaths env w1 wd projectId packageName).1 =
      (getPythonFilePaths env w2 wd projectId packageName).1 := by
  unfold getPythonFilePaths
  rw [h]
  simp only
  repeat' split
  all_goals simp_all

theorem resolvePython_fst (env : Env) (w1 w2 : World) (wd : String) (projectId : Int)
    (artifact packageName : String) (h : w1.disk = w2.disk) :
    (resolvePython env w1 wd projectId artifact packageName).1 =
      (resolvePython env w2 wd projectId artifact packageName).1 := by
  unfold resolvePython
  simp only
  split_ifs
  · exact getPythonFilePaths_fst env w1 w2 wd projectId _ h
  · rfl

theorem resolvePython_observes (env : Env) (w : World) (wd : String) (projectId : Int)
    (artifact packageName : String) :
    (resolvePython env w wd projectId artifact packageName).2.Observes w := by
  unfold resolvePython
  simp only
  split_ifs
  · exact getPythonFilePaths_observes env w wd projectId _
  · exact World.Observes.idle w


/-! ### The build path of `CompileModel` -/

/-- When the target does not exist, the ping is answered and the Python files
resolve to `(main, others)`, `CompileModel` is the call of `callCompiler` on the
resolved inputs, with its error wrapped. -/
theorem CompileModel_build (env : Env) (w : World) (address wd : String)
    (projectId modelId : Int) (name artifact kind packageName main : String)
    (others : List String) (pong : Response)
    (hne : osStat w.disk (targetAndSlug env wd modelId name artifact).1 = .notExist)
    (hping : env.httpGet (toUrl env address "ping") = .ok pong)
    (hres : (resolvePython env w wd projectId artifact packageName).1 = (main, others, none)) :
    ∃ w3 : World, w3.Observes
        ((w.record (.stat (targetAndSlug env wd modelId name artifact).1)).record
          (.httpGet (toUrl env address "ping"))) ∧
      CompileModel env w address wd projectId modelId name artifact kind packageName =
        match callCompiler env w3
            (toUrl env address (targetAndSlug env wd modelId name artifact).2)
            (targetAndSlug env wd modelId name artifact).1 (env.GetGenModelPath wd modelId) main
            (modelAssetOf env wd modelId name kind) others with
        | (some err, w4) => (("", some (.wrap err "failed compiler request")), w4)
        | (none, w4) => (((targetAndSlug env wd modelId name artifact).1, none), w4) := by
  have hres2 := resolvePython_fst env
    ((w.record (.stat (targetAndSlug env wd modelId name artifact).1)).record
      (.httpGet (toUrl env address "ping"))) w wd projectId artifact packageName rfl
  rw [hres] at hres2
  refine ⟨(resolvePython env
    ((w.record (.stat (targetAndSlug env wd modelId name artifact).1)).record
      (.httpGet (toUrl env address "ping"))) wd projectId artifact packageName).2,
    resolvePython_observes _ _ _ _ _ _, ?_⟩
  rcases hr : resolvePython env
    ((w.record (.stat (targetAndSlug env wd modelId name artifact).1)).record
      (.httpGet (toUrl env address "ping"))) wd projectId artifact packageName with ⟨r, w3⟩
  rw [hr] at hres2
  simp only at hres2
  subst hres2
  simp [CompileModel, hne, osIsNotExist, hping, hr]


/-! ### Cache check and liveness probe -/

/-- The target path `CompileModel` computes. -/
theorem targetAndSlug_fst_eq (env : Env) (wd : String) (modelId : Int) (name artifact : String) :
    (targetAndSlug env wd modelId name artifact).1 =
      if artifact = ArtifactWar then env.GetWarFilePath wd modelId name
      else if artifact = ArtifactPythonWar then env.GetPythonWarFilePath wd modelId name
      else if artifact = ArtifactJar then env.GetModelJarFilePath wd modelId name
      else "" := by
  unfold targetAndSlug
  split_ifs <;> rfl

/-- When `os.Stat` on the target does not report a not-exist error,
`CompileModel` returns the target path after that single call. -/
theorem CompileModel_of_not_notExist (env : Env) (w : World) (address wd : String)
    (projectId modelId : Int) (name artifact kind packageName : String)
    (h : osStat w.disk (targetAndSlug env wd modelId name artifact).1 ≠ .notExist) :
    CompileModel env w address wd projectId modelId name artifact kind packageName =
      (((targetAndSlug env wd modelId name artifact).1, none),
        w.record (.stat (targetAndSlug env wd modelId name artifact).1)) := by
  have h2 : osIsNotExist (osStat w.disk (targetAndSlug env wd modelId name artifact).1) = false := by
    cases hs : osStat w.disk (targetAndSlug env wd modelId name artifact).1 <;>
      simp_all [osIsNotExist]
  simp [CompileModel, h2]

/-- When the target does not exist and the ping fails, `CompileModel` stops
after the GET. -/
theorem CompileModel_ping_step (env : Env) (w : World) (address wd : String)
    (projectId modelId : Int) (name artifact kind packageName cause : String)
    (hne : osStat w.disk (targetAndSlug env wd modelId name artifact).1 = .notExist)
    (hping : env.httpGet (toUrl env address "ping") = .error cause) :
    CompileModel env w address wd projectId modelId name artifact kind packageName =
      (("", some (.wrap (.msg cause) "could not connect to prediction service builder")),
        (w.record (.stat (targetAndSlug env wd modelId name artifact).1)).record
          (.httpGet (toUrl env address "ping"))) := by
  simp [CompileModel, hne, osIsNotExist, hping]

/-- Once the target is found absent, the log of `CompileModel` starts with the
`os.Stat` on the target and the GET of the ping endpoint. -/
theorem CompileModel_of_notExist (env : Env) (w : World) (address wd : String)
    (projectId modelId : Int) (name artifact kind packageName : String)
    (hne : osStat w.disk (targetAndSlug env wd modelId name artifact).1 = .notExist) :
    (CompileModel env w address wd projectId modelId name artifact kind packageName).2.Extends
      ((w.record (.stat (targetAndSlug env wd modelId name artifact).1)).record
        (.httpGet (toUrl env address "ping"))) := by
  cases hping : env.httpGet (toUrl env address "ping") with
  | error cause =>
    have h := (CompileModel_ping_step env w address wd projectId modelId name artifact kind
      packageName cause hne hping)
    rw [h]
    exact World.Extends.same _
  | ok pong =>
    rcases hres : (resolvePython env w wd projectId artifact packageName).1 with
      ⟨main, others, _ | err⟩
    · obtain ⟨w3, hobs, heq⟩ := CompileModel_build env w address wd projectId modelId name
        artifact kind packageName main others pong hne hping hres
      rw [heq]
      have hc := callCompiler_extends env w3
        (toUrl env address (targetAndSlug env wd modelId name artifact).2)
        (targetAndSlug env wd modelId name artifact).1 (env.GetGenModelPath wd modelId) main
        (modelAssetOf env wd modelId name kind) others
      split
      · next h => rw [h] at hc; exact hc.after hobs.extends
      · next h => rw [h] at hc; exact hc.after hobs.extends
    · have hres2 := resolvePython_fst env
        ((w.record (.stat (targetAndSlug env wd modelId name artifact).1)).record
          (.httpGet (toUrl env address "ping"))) w wd projectId artifact packageName rfl
      rw [hres] at hres2
      have hobs := resolvePython_observes env
        ((w.record (.stat (targetAndSlug env wd modelId name artifact).1)).record
          (.httpGet (toUrl env address "ping"))) wd projectId artifact packageName
      rcases hr : resolvePython env
        ((w.record (.stat (targetAndSlug env wd modelId name artifact).1)).record
          (.httpGet (toUrl env address "ping"))) wd projectId artifact packageName with ⟨r, w3⟩
      rw [hr] at hres2 hobs
      simp only at hres2
      subst hres2
      have : CompileModel env w address wd projectId modelId name artifact kind packageName =
          (("", some err), w3) := by
        simp [CompileModel, hne, osIsNotExist, hping, hr]
      rw [this]
      exact hobs.extends

/-! ### Partition of the package files -/

theorem pathClean_ne_empty (p : String) : pathClean p ≠ "" := by
  unfold pathClean
  simp only
  split_ifs <;> simp [String.ext_iff]
  assumption

theorem pathJoin_ne_empty (a b : String) (hb : b ≠ "") : pathJoin a b ≠ "" := by
  unfold pathJoin
  split_ifs with h1
  · exact absurd h1.2 hb
  · exact pathClean_ne_empty b
  · exact pathClean_ne_empty _

theorem length_eq_zero_iff (s : String) : s.length = 0 ↔ s = "" := by
  cases s with
  | mk data =>
    cases data with
    | nil => exact ⟨fun _ => rfl, fun _ => rfl⟩
    | cons c cs =>
      constructor
      · intro h; exact absurd h (Nat.succ_ne_zero _)
      · intro h; exact absurd (congrArg String.data h) (List.cons_ne_nil _ _)

theorem py_ne_empty (f : String) (h : stringsToLower (pathExt f) = ".py") : f ≠ "" := by
  intro hf
  subst hf
  revert h
  decide

theorem partition_fold (pp m : String) (L : List String) (st : String × List String) :
    L.foldl (partitionStep pp m) st =
      (if m ∈ L ∧ stringsToLower (pathExt m) = ".py" then pathJoin pp m else st.1,
        st.2 ++ (L.filter fun f => stringsToLower (pathExt f) = ".py" ∧ f ≠ m).map
          (pathJoin pp)) := by
  induction L generalizing st with
  | nil => simp
  | cons f rest ih =>
    rw [List.foldl_cons, ih]
    unfold partitionStep
    by_cases hpy : stringsToLower (pathExt f) = ".py"
    · by_cases hfm : f = m
      · subst hfm
        simp [hpy]
      · have hmf : ¬ m = f := fun h => hfm h.symm
        simp [hpy, hfm, hmf]
    · have : ¬ (m = f ∧ stringsToLower (pathExt m) = ".py") := fun h => hpy (h.1 ▸ h.2)
      by_cases hin : m ∈ rest
      · simp [hpy, hin]
      · simp [hpy, hin, this]

/-- The outcome of `getPythonFilePaths` once the package directory exists, its
attributes parse to `attrs` with main entry `m`, and its listing is `L`. -/
theorem getPythonFilePaths_listed (env : Env) (w : World) (wd : String) (projectId : Int)
    (packageName m : String) (attrsBytes : Bytes) (attrs : List (String × String))
    (L : List String)
    (hdir : env.DirExists w.disk (env.GetPackagePath wd projectId packageName) = true)
    (hattrs : env.GetPackageAttributes w.disk wd projectId packageName = .ok attrsBytes)
    (hjson : env.JsonToMap attrsBytes = .ok attrs)
    (hm : attrs.lookup "main" = some m)
    (hlist : env.ListFiles w.disk (env.GetPackagePath wd projectId packageName) = .ok L) :
    (getPythonFilePaths env w wd projectId packageName).1 =
      if m ∈ L ∧ stringsToLower (pathExt m) = ".py" then
        (pathJoin (env.GetPackagePath wd projectId packageName) m,
          (L.filter fun f => stringsToLower (pathExt f) = ".py" ∧ f ≠ m).map
            (pathJoin (env.GetPackagePath wd projectId packageName)), none)
      else ("", [], some (.msg "Failed locating Python main file in package file listing")) := by
  unfold getPythonFilePaths
  simp only [hdir, hattrs, hjson, hm, hlist, partition_fold]
  by_cases h : m ∈ L ∧ stringsToLower (pathExt m) = ".py"
  · have hne := pathJoin_ne_empty (env.GetPackagePath wd projectId packageName) m
      (py_ne_empty m h.2)
    have hlen : ¬ (pathJoin (env.GetPackagePath wd projectId packageName) m).length = 0 := by
      rw [length_eq_zero_iff]; exact hne
    simp [h, hlen]
  · simp [h]


/-! ## The claims -/

/-- C1. Cache hit: when the target artifact path exists on disk, `CompileModel`
returns that path with a nil error, the only action it takes is the `os.Stat`
on the target (so the HTTP requests on the log are those that were there
before: no ping, no POST), the disk is unchanged, and a second call in the
resulting state returns the same path. -/
theorem CompileModel_cache_hit (env : Env) (w : World) (address wd : String)
    (projectId modelId : Int) (name artifact kind packageName : String)
    (hart : artifact = ArtifactWar ∨ artifact = ArtifactPythonWar ∨ artifact = ArtifactJar)
    (hex : osStat w.disk (targetAndSlug env wd modelId name artifact).1 = .ok) :
    (CompileModel env w address wd projectId modelId name artifact kind packageName).1 =
        ((targetAndSlug env wd modelId name artifact).1, none) ∧
    (CompileModel env w address wd projectId modelId name artifact kind packageName).2.log =
        w.log ++ [.stat (targetAndSlug env wd modelId name artifact).1] ∧
    (CompileModel env w address wd projectId modelId name artifact kind packageName).2.log.filter
        Event.isHttp = w.log.filter Event.isHttp ∧
    (CompileModel env w address wd projectId modelId name artifact kind packageName).2.disk =
        w.disk ∧
    (CompileModel env
        (CompileModel env w address wd projectId modelId name artifact kind packageName).2
        address wd projectId modelId name artifact kind packageName).1 =
      ((targetAndSlug env wd modelId name artifact).1, none) := by
  have _ := hart
  have h1 := CompileModel_of_not_notExist env w address wd projectId modelId name artifact kind
    packageName (by rw [hex]; decide)
  rw [h1]
  refine ⟨rfl, rfl, ?_, rfl, ?_⟩
  · simp [World.record, Event.isHttp]
  · rw [CompileModel_of_not_notExist]
    simp only [World.record]
    rw [hex]; decide

/-- C2. Liveness gate: when the target does not exist and the GET of the ping
endpoint fails with transport error `cause`, `CompileModel` returns the empty
path and that cause wrapped with "could not connect to prediction service
builder"; its only actions are the `os.Stat` on the target and the GET, so no
POST is sent and no model or package file is read, and the disk is unchanged. -/
theorem CompileModel_ping_failure (env : Env) (w : World) (address wd : String)
    (projectId modelId : Int) (name artifact kind packageName cause : String)
    (hne : osStat w.disk (targetAndSlug env wd modelId name artifact).1 = .notExist)
    (hping : env.httpGet (toUrl env address "ping") = .error cause) :
    (CompileModel env w address wd projectId modelId name artifact kind packageName).1 =
        ("", some (.wrap (.msg cause) "could not connect to prediction service builder")) ∧
    (GoError.wrap (.msg cause) "could not connect to prediction service builder").Error =
        "could not connect to prediction service builder: " ++ cause ∧
    (CompileModel env w address wd projectId modelId name artifact kind packageName).2.log =
        w.log ++ [.stat (targetAndSlug env wd modelId name artifact).1,
                  .httpGet (toUrl env address "ping")] ∧
    (CompileModel env w address wd projectId modelId name artifact kind packageName).2.log.filter
        Event.isPost = w.log.filter Event.isPost ∧
    (CompileModel env w address wd projectId modelId name artifact kind packageName).2.log.filter
        Event.isInputRead = w.log.filter Event.isInputRead ∧
    (CompileModel env w address wd projectId modelId name artifact kind packageName).2.disk =
        w.disk := by
  have h := CompileModel_ping_step env w address wd projectId modelId name artifact kind
    packageName cause hne hping
  rw [h]
  refine ⟨rfl, rfl, ?_, ?_, ?_, rfl⟩ <;>
    simp [World.record, Event.isPost, Event.isInputRead]

/-- C10. The cache check treats everything except a not-exist error as a hit.
For every input: if `os.Stat` on the target does not fail with a not-exist
error, in particular if it fails with any other error, `CompileModel` returns
the target path with a nil error and its only action is that `os.Stat` (no HTTP
request, disk unchanged); and if `os.Stat` fails with a not-exist error the ping
is sent next. -/
theorem CompileModel_stat_gate (env : Env) (w : World) (address wd : String)
    (projectId modelId : Int) (name artifact kind packageName : String) :
    (osStat w.disk (targetAndSlug env wd modelId name artifact).1 ≠ .notExist →
      CompileModel env w address wd projectId modelId name artifact kind packageName =
        (((targetAndSlug env wd modelId name artifact).1, none),
          w.record (.stat (targetAndSlug env wd modelId name artifact).1))) ∧
    (osStat w.disk (targetAndSlug env wd modelId name artifact).1 = .otherError →
      (CompileModel env w address wd projectId modelId name artifact kind packageName).1 =
          ((targetAndSlug env wd modelId name artifact).1, none) ∧
      (CompileModel env w address wd projectId modelId name artifact kind packageName).2.log =
          w.log ++ [.stat (targetAndSlug env wd modelId name artifact).1] ∧
      (CompileModel env w address wd projectId modelId name artifact kind packageName).2.disk =
          w.disk) ∧
    (osStat w.disk (targetAndSlug env wd modelId name artifact).1 = .notExist →
      (CompileModel env w address wd projectId modelId name artifact kind packageName).2.Extends
        ((w.record (.stat (targetAndSlug env wd modelId name artifact).1)).record
          (.httpGet (toUrl env address "ping")))) := by
  refine ⟨fun h => CompileModel_of_not_notExist env w address wd projectId modelId name artifact
    kind packageName h, fun h => ?_, fun h => CompileModel_of_notExist env w address wd projectId
    modelId name artifact kind packageName h⟩
  rw [CompileModel_of_not_notExist env w address wd projectId modelId name artifact kind
    packageName (by rw [h]; decide)]
  exact ⟨rfl, rfl, rfl⟩

/-- C5. Artifact-kind mapping: `war`, `pywar` and `jar` map to the slugs
`makewar`, `makepythonwar` and `compile`, each with the target path of that
kind's own naming function; the three slugs are pairwise distinct; any other
artifact string leaves the target path and the slug empty; and the path
`CompileModel` examines first is that target path. -/
theorem targetAndSlug_mapping (env : Env) (wd : String) (modelId : Int) (name : String) :
    targetAndSlug env wd modelId name "war" = (env.GetWarFilePath wd modelId name, "makewar") ∧
    targetAndSlug env wd modelId name "pywar" =
      (env.GetPythonWarFilePath wd modelId name, "makepythonwar") ∧
    targetAndSlug env wd modelId name "jar" = (env.GetModelJarFilePath wd modelId name, "compile") ∧
    ("makewar" ≠ "makepythonwar" ∧ "makewar" ≠ "compile" ∧ "makepythonwar" ≠ "compile") ∧
    (∀ artifact : String, artifact ≠ "war" → artifact ≠ "pywar" → artifact ≠ "jar" →
      targetAndSlug env wd modelId name artifact = ("", "")) ∧
    (∀ (w : World) (address : String) (projectId : Int) (artifact kind packageName : String),
      (CompileModel env w address wd projectId modelId name artifact kind packageName).2.Extends
        (w.record (.stat (targetAndSlug env wd modelId name artifact).1))) := by
  refine ⟨by simp [targetAndSlug, ArtifactWar], by simp [targetAndSlug, ArtifactWar, ArtifactPythonWar],
    by simp [targetAndSlug, ArtifactWar, ArtifactPythonWar, ArtifactJar],
    ⟨by decide, by decide, by decide⟩, ?_, ?_⟩
  · intro artifact h1 h2 h3
    simp [targetAndSlug, ArtifactWar, ArtifactPythonWar, ArtifactJar, h1, h2, h3]
  · intro w address projectId artifact kind packageName
    by_cases h : osStat w.disk (targetAndSlug env wd modelId name artifact).1 = .notExist
    · exact (CompileModel_of_notExist env w address wd projectId modelId name artifact kind
        packageName h).after (World.record_extends _ _)
    · rw [CompileModel_of_not_notExist env w address wd projectId modelId name artifact kind
        packageName h]
      exact World.Extends.same _

/-- C3 (amended). End-to-end success: for a recognised artifact kind and model
kind, if the target path does not exist and a file can be created there, the
ping succeeds, the Python files resolve (to the empty main path and no files
when no package is to be resolved), every input file is readable and the remote
answers the POST with status 200 and a body `X` that is delivered in full, then
`CompileModel` returns the target path with a nil error; that path is the one
the naming function of the artifact kind gives for `(wd, modelId, name)`; one
POST was sent, to the slug of the artifact kind; and afterwards the file at the
target holds exactly `X`. -/
theorem CompileModel_success (env : Env) (w : World) (address wd : String)
    (projectId modelId : Int) (name artifact kind packageName main : String)
    (others : List String) (pong res : Response)
    (hart : artifact = ArtifactWar ∨ artifact = ArtifactPythonWar ∨ artifact = ArtifactJar)
    (hkind : kind = "pojo" ∨ kind = "mojo")
    (habsent : w.disk (targetAndSlug env wd modelId name artifact).1 = .absent true)
    (hping : env.httpGet (toUrl env address "ping") = .ok pong)
    (hres : (resolvePython env w wd projectId artifact packageName).1 = (main, others, none))
    (hmodel : readable w.disk (modelAssetOf env wd modelId name kind).path = true)
    (hdep : readable w.disk (env.GetGenModelPath wd modelId) = true)
    (hmain : main.length > 0 → readable w.disk main = true)
    (hothers : ∀ p ∈ others, readable w.disk p = true)
    (hpost : env.httpPost (toUrl env address (targetAndSlug env wd modelId name artifact).2)
      (bodyOf w.disk (env.GetGenModelPath wd modelId) main (modelAssetOf env wd modelId name kind)
        others) = .ok res)
    (hcode : res.StatusCode = 200) (hbody : res.bodyErr = none) :
    (CompileModel env w address wd projectId modelId name artifact kind packageName).1 =
        ((targetAndSlug env wd modelId name artifact).1, none) ∧
    (targetAndSlug env wd modelId name artifact).1 =
        (if artifact = ArtifactWar then env.GetWarFilePath wd modelId name
         else if artifact = ArtifactPythonWar then env.GetPythonWarFilePath wd modelId name
         else env.GetModelJarFilePath wd modelId name) ∧
    postsOf (CompileModel env w address wd projectId modelId name artifact kind packageName).2.log =
        postsOf w.log ++ [(toUrl env address (targetAndSlug env wd modelId name artifact).2,
          bodyOf w.disk (env.GetGenModelPath wd modelId) main
            (modelAssetOf env wd modelId name kind) others)] ∧
    (CompileModel env w address wd projectId modelId name artifact kind packageName).2.disk =
        Function.update w.disk (targetAndSlug env wd modelId name artifact).1
          (.file res.body true true) ∧
    (CompileModel env w address wd projectId modelId name artifact kind packageName).2.disk
        (targetAndSlug env wd modelId name artifact).1 = .file res.body true true := by
  have _ := hkind
  have hne : osStat w.disk (targetAndSlug env wd modelId name artifact).1 = .notExist := by
    unfold osStat; rw [habsent]
  obtain ⟨w3, hobs, heq⟩ := CompileModel_build env w address wd projectId modelId name artifact
    kind packageName main others pong hne hping hres
  have hd : w3.disk = w.disk := hobs.1
  have hp : postsOf w3.log = postsOf w.log := by
    rw [hobs.posts]; simp [World.record, postsOf]
  obtain ⟨opened, hopen, hwritten⟩ := written_absent w.disk _ res.body habsent
  have hcall := callCompiler_readable env w3
    (toUrl env address (targetAndSlug env wd modelId name artifact).2)
    (targetAndSlug env wd modelId name artifact).1 (env.GetGenModelPath wd modelId) main
    (modelAssetOf env wd modelId name kind) others (by rw [hd]; exact hmodel)
    (by rw [hd]; exact hdep) (by rw [hd]; exact hmain) (by rw [hd]; exact hothers)
  rw [hd] at hcall
  rw [submit_success env ⟨w.disk, w3.log ++ readsOf _ _ _ _⟩ _ _ _ res opened hpost hcode hbody
    hopen] at hcall
  rw [heq, hcall]
  dsimp only
  refine ⟨rfl, ?_, ?_, hwritten, ?_⟩
  · rw [targetAndSlug_fst_eq]
    rcases hart with h | h | h
    · simp [h]
    · simp [h, ArtifactPythonWar, ArtifactWar]
    · simp [h, ArtifactPythonWar, ArtifactWar, ArtifactJar]
  · rw [postsOf_append, postsOf_append, hp, postsOf_readsOf]
    simp [postsOf]
  · rw [hwritten]; simp

/-- C4. Failure propagation on bad status.  First part, for `callCompiler`:
when the input files were attached and the response to the POST has a status
code other than 200 and a body that is read in full, the error message is
"Failed compiling scoring service: " followed by the status line, " / " and the
body text, so it contains both; the disk is unchanged and the log holds no
action after the POST (the target is neither created nor written).  Second
part, for `CompileModel` on the build path: it returns the empty path and that
error wrapped with "failed compiler request", and the disk is unchanged. -/
theorem callCompiler_bad_status (env : Env) :
    (∀ (w : World) (url target dep main : String) (a : asset) (others : List String)
        (res : Response),
      readable w.disk a.path = true → readable w.disk dep = true →
      (main.length > 0 → readable w.disk main = true) →
      (∀ p ∈ others, readable w.disk p = true) →
      env.httpPost url (bodyOf w.disk dep main a others) = .ok res →
      res.StatusCode ≠ 200 → res.bodyErr = none →
      (callCompiler env w url target dep main a others).1 =
          some (.msg ("Failed compiling scoring service: " ++ res.Status ++ " / " ++
            goString res.body)) ∧
      res.Status.data <:+: ("Failed compiling scoring service: " ++ res.Status ++ " / " ++
          goString res.body).data ∧
      (goString res.body).data <:+: ("Failed compiling scoring service: " ++ res.Status ++
          " / " ++ goString res.body).data ∧
      (callCompiler env w url target dep main a others).2.disk = w.disk ∧
      (callCompiler env w url target dep main a others).2.log =
          w.log ++ readsOf dep main a others ++
            [.httpPost url (bodyOf w.disk dep main a others)]) ∧
    (∀ (w : World) (address wd : String) (projectId modelId : Int)
        (name artifact kind packageName main : String) (others : List String)
        (pong res : Response),
      osStat w.disk (targetAndSlug env wd modelId name artifact).1 = .notExist →
      env.httpGet (toUrl env address "ping") = .ok pong →
      (resolvePython env w wd projectId artifact packageName).1 = (main, others, none) →
      readable w.disk (modelAssetOf env wd modelId name kind).path = true →
      readable w.disk (env.GetGenModelPath wd modelId) = true →
      (main.length > 0 → readable w.disk main = true) →
      (∀ p ∈ others, readable w.disk p = true) →
      env.httpPost (toUrl env address (targetAndSlug env wd modelId name artifact).2)
        (bodyOf w.disk (env.GetGenModelPath wd modelId) main
          (modelAssetOf env wd modelId name kind) others) = .ok res →
      res.StatusCode ≠ 200 → res.bodyErr = none →
      (CompileModel env w address wd projectId modelId name artifact kind packageName).1 =
          ("", some (.wrap (.msg ("Failed compiling scoring service: " ++ res.Status ++ " / " ++
            goString res.body)) "failed compiler request")) ∧
      (CompileModel env w address wd projectId modelId name artifact kind packageName).2.disk =
          w.disk) := by
  constructor
  · intro w url target dep main a others res hmodel hdep hmain hothers hpost hcode hbody
    rw [callCompiler_readable env w url target dep main a others hmodel hdep hmain hothers,
      submit_bad_status env _ url target _ res hpost hcode hbody]
    refine ⟨rfl, ?_, ?_, rfl, ?_⟩
    · exact ⟨"Failed compiling scoring service: ".data, (" / " ++ goString res.body).data,
        by simp⟩
    · exact ⟨("Failed compiling scoring service: " ++ res.Status ++ " / ").data, [], by simp⟩
    · simp [World.record]
  · intro w address wd projectId modelId name artifact kind packageName main others pong res
      hne hping hres hmodel hdep hmain hothers hpost hcode hbody
    obtain ⟨w3, hobs, heq⟩ := CompileModel_build env w address wd projectId modelId name artifact
      kind packageName main others pong hne hping hres
    have hd : w3.disk = w.disk := hobs.1
    have hcall := callCompiler_readable env w3
      (toUrl env address (targetAndSlug env wd modelId name artifact).2)
      (targetAndSlug env wd modelId name artifact).1 (env.GetGenModelPath wd modelId) main
      (modelAssetOf env wd modelId name kind) others (by rw [hd]; exact hmodel)
      (by rw [hd]; exact hdep) (by rw [hd]; exact hmain) (by rw [hd]; exact hothers)
    rw [hd] at hcall
    rw [submit_bad_status env ⟨w.disk, w3.log ++ readsOf _ _ _ _⟩ _ _ _ res hpost hcode hbody]
      at hcall
    rw [heq, hcall]
    exact ⟨rfl, rfl⟩

/-- C8 (amended). Upload composition: when the model, the dependency, the
Python main file (if its path is not empty) and the auxiliary files are
readable, `callCompiler` sends one POST whose multipart body is, in this order,
the model under its own type, the dependency under `jar`, and, if and only if
the main path is not empty, the main file under `python` followed by one
`pythonextra` part per auxiliary file in list order; each part has the base
name of its file as file name and the bytes of the file as content. -/
theorem callCompiler_body (env : Env) (w : World) (url target dep main : String) (a : asset)
    (others : List String)
    (hmodel : readable w.disk a.path = true) (hdep : readable w.disk dep = true)
    (hmain : main.length > 0 → readable w.disk main = true)
    (hothers : ∀ p ∈ others, readable w.disk p = true) :
    postsOf (callCompiler env w url target dep main a others).2.log =
      postsOf w.log ++
        [(url,
          [⟨a.typ, pathBase a.path, contentOf w.disk a.path⟩,
           ⟨"jar", pathBase dep, contentOf w.disk dep⟩] ++
          (if main.length > 0 then
            (⟨"python", pathBase main, contentOf w.disk main⟩ : Part) ::
              others.map fun p => ⟨"pythonextra", pathBase p, contentOf w.disk p⟩
           else []))] := by
  rw [callCompiler_readable env w url target dep main a others hmodel hdep hmain hothers,
    submit_posts, postsOf_append, postsOf_readsOf, List.append_nil]
  rfl

/-- C9. Open-mode truncation gap: when `callCompiler` succeeds (inputs
attached, status 200, body `X` read in full) on a target that is a writable file
holding `P`, the file afterwards holds `X` followed by the bytes of `P` from
offset `len(X)` on, and that content equals `X` if and only if
`len(P) <= len(X)`. -/
theorem callCompiler_no_truncate (env : Env) (w : World) (url target dep main : String)
    (a : asset) (others : List String) (res : Response) (P : Bytes) (r : Bool)
    (hmodel : readable w.disk a.path = true) (hdep : readable w.disk dep = true)
    (hmain : main.length > 0 → readable w.disk main = true)
    (hothers : ∀ p ∈ others, readable w.disk p = true)
    (hpost : env.httpPost url (bodyOf w.disk dep main a others) = .ok res)
    (hcode : res.StatusCode = 200) (hbody : res.bodyErr = none)
    (htarget : w.disk target = .file P r true) :
    (callCompiler env w url target dep main a others).1 = none ∧
    (callCompiler env w url target dep main a others).2.disk target =
        .file (res.body ++ P.drop res.body.length) r true ∧
    (res.body ++ P.drop res.body.length = res.body ↔ P.length ≤ res.body.length) := by
  obtain ⟨hopen, hwritten⟩ := written_present w.disk target P res.body r htarget
  rw [callCompiler_readable env w url target dep main a others hmodel hdep hmain hothers,
    submit_success env ⟨w.disk, w.log ++ readsOf _ _ _ _⟩ _ _ _ res w.disk hpost hcode hbody hopen]
  refine ⟨rfl, ?_, ?_⟩
  · dsimp only
    rw [hwritten]; simp
  · simp [List.drop_eq_nil_iff]

/-- C6. Python file partition: when `getPythonFilePaths` succeeds on a package
whose attributes declare main entry `m` and whose directory listing is `L`, the
main path is `path.Join(packagePath, m)` and the auxiliary list is
`path.Join(packagePath, f)` for the files `f` of `L`, in listing order, with
`strings.ToLower(path.Ext(f)) == ".py"` and `f != m`; a file whose extension is
not `.py` is therefore in neither result. -/
theorem getPythonFilePaths_partition (env : Env) (w : World) (wd : String) (projectId : Int)
    (packageName m : String) (attrsBytes : Bytes) (attrs : List (String × String))
    (L : List String)
    (hattrs : env.GetPackageAttributes w.disk wd projectId packageName = .ok attrsBytes)
    (hjson : env.JsonToMap attrsBytes = .ok attrs)
    (hm : attrs.lookup "main" = some m)
    (hlist : env.ListFiles w.disk (env.GetPackagePath wd projectId packageName) = .ok L)
    (hok : (getPythonFilePaths env w wd projectId packageName).1.2.2 = none) :
    (getPythonFilePaths env w wd projectId packageName).1.1 =
        pathJoin (env.GetPackagePath wd projectId packageName) m ∧
    (getPythonFilePaths env w wd projectId packageName).1.2.1 =
        (L.filter fun f => stringsToLower (pathExt f) = ".py" ∧ f ≠ m).map
          (pathJoin (env.GetPackagePath wd projectId packageName)) := by
  have hdir : env.DirExists w.disk (env.GetPackagePath wd projectId packageName) = true := by
    by_contra hd
    simp [getPythonFilePaths, hd] at hok
  have h := getPythonFilePaths_listed env w wd projectId packageName m attrsBytes attrs L hdir
    hattrs hjson hm hlist
  rw [h] at hok ⊢
  split_ifs with hc
  · exact ⟨rfl, rfl⟩
  · rw [if_neg hc] at hok
    simp at hok

/-- C7. Invalid-package errors.  First part: for an existing package directory
whose attributes are read and parse to `attrs` and whose listing `L` succeeds,
`getPythonFilePaths` fails if and only if `attrs` has no `main` key or no file
of `L` with a `.py` extension (case-insensitive) equals the declared main
entry.  Second part: on every failure the returned main path is empty and the
returned list holds no file. -/
theorem getPythonFilePaths_failure (env : Env) :
    (∀ (w : World) (wd : String) (projectId : Int) (packageName : String) (attrsBytes : Bytes)
        (attrs : List (String × String)) (L : List String),
      env.DirExists w.disk (env.GetPackagePath wd projectId packageName) = true →
      env.GetPackageAttributes w.disk wd projectId packageName = .ok attrsBytes →
      env.JsonToMap attrsBytes = .ok attrs →
      env.ListFiles w.disk (env.GetPackagePath wd projectId packageName) = .ok L →
      ((getPythonFilePaths env w wd projectId packageName).1.2.2 ≠ none ↔
        (attrs.lookup "main" = none ∨
          ∃ m, attrs.lookup "main" = some m ∧
            ¬ ∃ f ∈ L, stringsToLower (pathExt f) = ".py" ∧ f = m))) ∧
    (∀ (w : World) (wd : String) (projectId : Int) (packageName : String),
      (getPythonFilePaths env w wd projectId packageName).1.2.2 ≠ none →
      (getPythonFilePaths env w wd projectId packageName).1.1 = "" ∧
      (getPythonFilePaths env w wd projectId packageName).1.2.1 = []) := by
  constructor
  · intro w wd projectId packageName attrsBytes attrs L hdir hattrs hjson hlist
    cases hm : attrs.lookup "main" with
    | none =>
      have : (getPythonFilePaths env w wd projectId packageName).1 =
          ("", [], some (.msg "Failed determining Python main file from package attributes")) := by
        simp [getPythonFilePaths, hdir, hattrs, hjson, hm]
      rw [this]
      simp
    | some m =>
      rw [getPythonFilePaths_listed env w wd projectId packageName m attrsBytes attrs L hdir
        hattrs hjson hm hlist]
      by_cases hc : m ∈ L ∧ stringsToLower (pathExt m) = ".py"
      · rw [if_pos hc]
        simp only [ne_eq, not_true_eq_false, false_iff, not_or, reduceCtorEq, not_false_eq_true,
          true_and, not_exists, not_and, not_not, Option.some.injEq]
        intro m2 hm2 hall
        subst hm2
        exact hall _ hc.1 hc.2 rfl
      · rw [if_neg hc]
        simp only [ne_eq, reduceCtorEq, not_false_eq_true, false_or, true_iff,
          Option.some.injEq]
        refine ⟨m, rfl, ?_⟩
        rintro ⟨f, hf, hpy, rfl⟩
        exact hc ⟨hf, hpy⟩
  · intro w wd projectId packageName
    unfold getPythonFilePaths
    simp only
    repeat' split
    all_goals simp

/-! ## The claims on the sample installation -/

/-- C1 at a concrete input: the war of model `m` is already on disk. -/
theorem CompileModel_cache_hit_witness :
    osStat cachedWorld.disk (targetAndSlug builtEnv "/w" 2 "m" "war").1 = .ok ∧
    (CompileModel builtEnv cachedWorld "host:8080" "/w" 1 2 "m" "war" "pojo" "").1 =
      ("/w/m.war", none) ∧
    (CompileModel builtEnv cachedWorld "host:8080" "/w" 1 2 "m" "war" "pojo" "").2.log =
      [.stat "/w/m.war"] :=
  ⟨by decide,
    (CompileModel_cache_hit builtEnv cachedWorld "host:8080" "/w" 1 2 "m" "war" "pojo" ""
      (Or.inl rfl) (by decide)).1,
    (CompileModel_cache_hit builtEnv cachedWorld "host:8080" "/w" 1 2 "m" "war" "pojo" ""
      (Or.inl rfl) (by decide)).2.1⟩

/-- C2 at a concrete input: the service refuses the connection. -/
theorem CompileModel_ping_failure_witness :
    osStat freshWorld.disk (targetAndSlug downEnv "/w" 2 "m" "war").1 = .notExist ∧
    downEnv.httpGet (toUrl downEnv "host:8080" "ping") = .error "dial tcp: connection refused" ∧
    (CompileModel downEnv freshWorld "host:8080" "/w" 1 2 "m" "war" "pojo" "").1 =
      ("", some (.wrap (.msg "dial tcp: connection refused")
        "could not connect to prediction service builder")) :=
  ⟨by decide, rfl,
    (CompileModel_ping_failure downEnv freshWorld "host:8080" "/w" 1 2 "m" "war" "pojo" ""
      "dial tcp: connection refused" (by decide) rfl).1⟩

/-- C3 as stated fails: the target does not exist, the ping succeeds, the model
and the dependency are readable and the remote answers 200 with body
`[7, 8, 9]`, but no file can be created at the target path; `CompileModel`
returns an error and the target still does not exist. -/
theorem CompileModel_success_needs_creatable :
    osStat noDirWorld.disk "/w/m.war" = .notExist ∧
    builtEnv.httpGet (toUrl builtEnv "host:8080" "ping") = .ok (reply 200 "200 OK" []) ∧
    readable noDirWorld.disk "/w/m.java" = true ∧
    readable noDirWorld.disk "/w/h2o-genmodel.jar" = true ∧
    (∀ url body, builtEnv.httpPost url body = .ok (reply 200 "200 OK" [7, 8, 9])) ∧
    builtEnv.GetWarFilePath "/w" 2 "m" = "/w/m.war" ∧
    (CompileModel builtEnv noDirWorld "host:8080" "/w" 1 2 "m" "war" "pojo" "").1 =
      ("", some (.wrap (.msg
        "Failed creating compiled artifact /w/m.war: open /w/m.war: no such file or directory")
        "failed compiler request")) ∧
    (CompileModel builtEnv noDirWorld "host:8080" "/w" 1 2 "m" "war" "pojo" "").1 ≠
      ("/w/m.war", none) ∧
    (CompileModel builtEnv noDirWorld "host:8080" "/w" 1 2 "m" "war" "pojo" "").2.disk "/w/m.war" =
      .absent false := by
  refine ⟨by decide, rfl, by decide, by decide, fun _ _ => rfl, by decide, by decide, by decide,
    by decide⟩

/-- C3 (amended) at a concrete input: the Python war of model `m` with package
`pkg`. -/
theorem CompileModel_success_witness :
    freshWorld.disk (targetAndSlug builtEnv "/w" 2 "m" "pywar").1 = .absent true ∧
    (resolvePython builtEnv freshWorld "/w" 1 "pywar" " pkg ").1 =
      ("/w/pkg/a.py", ["/w/pkg/b.py"], none) ∧
    (CompileModel builtEnv freshWorld "host:8080" "/w" 1 2 "m" "pywar" "pojo" " pkg ").1 =
      ("/w/m-py.war", none) ∧
    (CompileModel builtEnv freshWorld "host:8080" "/w" 1 2 "m" "pywar" "pojo" " pkg ").2.disk
      "/w/m-py.war" = .file [7, 8, 9] true true :=
  ⟨by decide, by decide,
    (CompileModel_success builtEnv freshWorld "host:8080" "/w" 1 2 "m" "pywar" "pojo" " pkg "
      "/w/pkg/a.py" ["/w/pkg/b.py"] (reply 200 "200 OK" []) (reply 200 "200 OK" [7, 8, 9])
      (Or.inr (Or.inl rfl)) (Or.inl rfl) (by decide) rfl (by decide) (by decide) (by decide)
      (by decide) (by decide) rfl rfl rfl).1,
    (CompileModel_success builtEnv freshWorld "host:8080" "/w" 1 2 "m" "pywar" "pojo" " pkg "
      "/w/pkg/a.py" ["/w/pkg/b.py"] (reply 200 "200 OK" []) (reply 200 "200 OK" [7, 8, 9])
      (Or.inr (Or.inl rfl)) (Or.inl rfl) (by decide) rfl (by decide) (by decide) (by decide)
      (by decide) (by decide) rfl rfl rfl).2.2.2.2⟩


/-- C4 at a concrete input: the remote answers 500 with body `boom`. -/
theorem callCompiler_bad_status_witness :
    (callCompiler failingEnv freshWorld "http://host:8080/makewar" "/w/m.war"
      "/w/h2o-genmodel.jar" "" ⟨"/w/m.java", "pojo"⟩ []).1 =
      some (.msg "Failed compiling scoring service: 500 Internal Server Error / boom") ∧
    (callCompiler failingEnv freshWorld "http://host:8080/makewar" "/w/m.war"
      "/w/h2o-genmodel.jar" "" ⟨"/w/m.java", "pojo"⟩ []).2.disk = freshWorld.disk ∧
    (CompileModel failingEnv freshWorld "host:8080" "/w" 1 2 "m" "war" "pojo" "").1 =
      ("", some (.wrap (.msg "Failed compiling scoring service: 500 Internal Server Error / boom")
        "failed compiler request")) ∧
    (CompileModel failingEnv freshWorld "host:8080" "/w" 1 2 "m" "war" "pojo" "").2.disk "/w/m.war" =
      .absent true :=
  ⟨((callCompiler_bad_status failingEnv).1 freshWorld "http://host:8080/makewar" "/w/m.war"
      "/w/h2o-genmodel.jar" "" ⟨"/w/m.java", "pojo"⟩ []
      (reply 500 "500 Internal Server Error" (asciiBytes "boom")) (by decide) (by decide)
      (by decide) (by decide) rfl (by decide) rfl).1,
   ((callCompiler_bad_status failingEnv).1 freshWorld "http://host:8080/makewar" "/w/m.war"
      "/w/h2o-genmodel.jar" "" ⟨"/w/m.java", "pojo"⟩ []
      (reply 500 "500 Internal Server Error" (asciiBytes "boom")) (by decide) (by decide)
      (by decide) (by decide) rfl (by decide) rfl).2.2.2.1,
   ((callCompiler_bad_status failingEnv).2 freshWorld "host:8080" "/w" 1 2 "m" "war" "pojo" "" ""
      [] (reply 200 "200 OK" []) (reply 500 "500 Internal Server Error" (asciiBytes "boom"))
      (by decide) rfl (by decide) (by decide) (by decide) (by decide) (by decide) rfl (by decide)
      rfl).1,
   by
    rw [((callCompiler_bad_status failingEnv).2 freshWorld "host:8080" "/w" 1 2 "m" "war" "pojo"
      "" "" [] (reply 200 "200 OK" [])
      (reply 500 "500 Internal Server Error" (asciiBytes "boom"))
      (by decide) rfl (by decide) (by decide) (by decide) (by decide) (by decide) rfl (by decide)
      rfl).2]
    decide⟩

/-- C6 at a concrete input: the package holds `a.py`, `b.py` and `c.txt` and
declares `a.py` as main; the main path is `a.py`, the auxiliary list is `b.py`
alone, and `c.txt` is in neither. -/
theorem getPythonFilePaths_partition_witness :
    builtEnv.ListFiles freshWorld.disk (builtEnv.GetPackagePath "/w" 1 "pkg") =
      .ok ["a.py", "b.py", "c.txt"] ∧
    (builtEnv.JsonToMap attrsMainA).map (List.lookup "main") = .ok (some "a.py") ∧
    (getPythonFilePaths builtEnv freshWorld "/w" 1 "pkg").1 =
      ("/w/pkg/a.py", ["/w/pkg/b.py"], none) ∧
    (getPythonFilePaths builtEnv freshWorld "/w" 1 "pkg").1.1 =
      pathJoin (builtEnv.GetPackagePath "/w" 1 "pkg") "a.py" ∧
    (getPythonFilePaths builtEnv freshWorld "/w" 1 "pkg").1.2.1 =
      (["a.py", "b.py", "c.txt"].filter fun f =>
          stringsToLower (pathExt f) = ".py" ∧ f ≠ "a.py").map
        (pathJoin (builtEnv.GetPackagePath "/w" 1 "pkg")) :=
  ⟨by rfl, by rfl, by decide,
    getPythonFilePaths_partition builtEnv freshWorld "/w" 1 "pkg" "a.py" attrsMainA
      [("main", "a.py")] ["a.py", "b.py", "c.txt"] (by rfl) (by rfl) (by decide) (by rfl)
      (by decide)⟩

/-- C7 at concrete inputs: attributes that declare `missing.py` over a directory
holding only `b.py`, and attributes without a `main` key; both fail and return
no file. -/
theorem getPythonFilePaths_failure_witness :
    (getPythonFilePaths onlyBEnv missingMainWorld "/w" 1 "pkg").1.2.2 ≠ none ∧
    ((getPythonFilePaths onlyBEnv missingMainWorld "/w" 1 "pkg").1.1 = "" ∧
      (getPythonFilePaths onlyBEnv missingMainWorld "/w" 1 "pkg").1.2.1 = []) ∧
    (getPythonFilePaths builtEnv ⟨sampleDisk (asciiBytes "\x7b\x7d") (.absent true), []⟩ "/w" 1
      "pkg").1.2.2 ≠ none :=
  ⟨((getPythonFilePaths_failure onlyBEnv).1 missingMainWorld "/w" 1 "pkg" attrsMainMissing
      [("main", "missing.py")] ["b.py"] (by decide) (by rfl) (by rfl) (by rfl)).2
      (Or.inr ⟨"missing.py", by decide, by decide⟩),
   (getPythonFilePaths_failure onlyBEnv).2 missingMainWorld "/w" 1 "pkg" (by decide),
   ((getPythonFilePaths_failure builtEnv).1 ⟨sampleDisk (asciiBytes "\x7b\x7d") (.absent true), []⟩
      "/w" 1 "pkg" (asciiBytes "\x7b\x7d") [] sampleListing (by decide) (by rfl) (by rfl)
      (by rfl)).2 (Or.inl rfl)⟩

/-- C8 as stated fails: with an empty main path and the readable auxiliary file
`b.py`, the body sent holds the model and the dependency only, not the
auxiliary part the specification asks for. -/
theorem callCompiler_aux_without_main :
    readable freshWorld.disk "/w/m.java" = true ∧
    readable freshWorld.disk "/w/h2o-genmodel.jar" = true ∧
    readable freshWorld.disk "/w/pkg/b.py" = true ∧
    postsOf (callCompiler builtEnv freshWorld "u" "/w/m.war" "/w/h2o-genmodel.jar" ""
      ⟨"/w/m.java", "pojo"⟩ ["/w/pkg/b.py"]).2.log =
      [("u", [⟨"pojo", "m.java", [1, 2]⟩, ⟨"jar", "h2o-genmodel.jar", [3]⟩])] ∧
    specBody freshWorld.disk "/w/h2o-genmodel.jar" "" ⟨"/w/m.java", "pojo"⟩ ["/w/pkg/b.py"] =
      [⟨"pojo", "m.java", [1, 2]⟩, ⟨"jar", "h2o-genmodel.jar", [3]⟩,
        ⟨"pythonextra", "b.py", [11]⟩] ∧
    postsOf (callCompiler builtEnv freshWorld "u" "/w/m.war" "/w/h2o-genmodel.jar" ""
      ⟨"/w/m.java", "pojo"⟩ ["/w/pkg/b.py"]).2.log ≠
      [("u", specBody freshWorld.disk "/w/h2o-genmodel.jar" "" ⟨"/w/m.java", "pojo"⟩
        ["/w/pkg/b.py"])] := by
  refine ⟨by decide, by decide, by decide, by decide, by decide, by decide⟩

/-- C8 (amended) at a concrete input: a model, the dependency, the main file
`a.py` and the auxiliary file `b.py`. -/
theorem callCompiler_body_witness :
    postsOf (callCompiler builtEnv freshWorld "u" "/w/m.war" "/w/h2o-genmodel.jar" "/w/pkg/a.py"
      ⟨"/w/m.java", "pojo"⟩ ["/w/pkg/b.py"]).2.log =
      [("u", [⟨"pojo", "m.java", [1, 2]⟩, ⟨"jar", "h2o-genmodel.jar", [3]⟩,
        ⟨"python", "a.py", [10]⟩, ⟨"pythonextra", "b.py", [11]⟩])] :=
  (callCompiler_body builtEnv freshWorld "u" "/w/m.war" "/w/h2o-genmodel.jar" "/w/pkg/a.py"
    ⟨"/w/m.java", "pojo"⟩ ["/w/pkg/b.py"] (by decide) (by decide) (by decide) (by decide)).trans
    (by decide)

/-- C9 at a concrete input: a body of three bytes written over a previous
artifact of five bytes leaves the last two bytes of the previous artifact. -/
theorem callCompiler_no_truncate_witness :
    cachedWorld.disk "/w/m.war" = .file [1, 2, 3, 4, 5] true true ∧
    (callCompiler builtEnv cachedWorld "u" "/w/m.war" "/w/h2o-genmodel.jar" ""
      ⟨"/w/m.java", "pojo"⟩ []).1 = none ∧
    (callCompiler builtEnv cachedWorld "u" "/w/m.war" "/w/h2o-genmodel.jar" ""
      ⟨"/w/m.java", "pojo"⟩ []).2.disk "/w/m.war" = .file [7, 8, 9, 4, 5] true true :=
  ⟨by decide,
    (callCompiler_no_truncate builtEnv cachedWorld "u" "/w/m.war" "/w/h2o-genmodel.jar" ""
      ⟨"/w/m.java", "pojo"⟩ [] (reply 200 "200 OK" [7, 8, 9]) [1, 2, 3, 4, 5] true (by decide)
      (by decide) (by decide) (by decide) rfl rfl rfl (by decide)).1,
    (callCompiler_no_truncate builtEnv cachedWorld "u" "/w/m.war" "/w/h2o-genmodel.jar" ""
      ⟨"/w/m.java", "pojo"⟩ [] (reply 200 "200 OK" [7, 8, 9]) [1, 2, 3, 4, 5] true (by decide)
      (by decide) (by decide) (by decide) rfl rfl rfl (by decide)).2.1⟩

/-- C10 at a concrete input: `os.Stat` on the target fails with an error that is
not a not-exist error, and `CompileModel` reports the target as built. -/
theorem CompileModel_stat_gate_witness :
    osStat blockedWorld.disk (targetAndSlug builtEnv "/w" 2 "m" "war").1 = .otherError ∧
    (CompileModel builtEnv blockedWorld "host:8080" "/w" 1 2 "m" "war" "pojo" "").1 =
      ("/w/m.war", none) ∧
    (CompileModel builtEnv blockedWorld "host:8080" "/w" 1 2 "m" "war" "pojo" "").2.log =
      [.stat "/w/m.war"] :=
  ⟨by decide,
    ((CompileModel_stat_gate builtEnv blockedWorld "host:8080" "/w" 1 2 "m" "war" "pojo" "").2.1
      (by decide)).1,
    ((CompileModel_stat_gate builtEnv blockedWorld "host:8080" "/w" 1 2 "m" "war" "pojo" "").2.1
      (by decide)).2.1⟩

end Compiler
